import Mathlib

/-!
Verification of the activity-recommendation pipeline of the family-trip-planner
backend: quality scoring (`translation_service.calculate_quality_score`), search
selection (`search_service.smart_search_activities`), persistence
(`search_service._save_recommendations`), translation caching
(`models/translation_cache.py`, `translation_service.translate_activity_content`,
`batch_translate_activities`), voting (`routes/voting.py`,
`models/activity_recommendation.py`) and the dashboard statistics
(`routes/voting.py`, `routes/favorites.py`).

Conventions of the shallow embedding:
* Python dict fields that may be absent are `Option`-typed; a field that may be
  present with value `None` (null) is modelled with `PyNum` (a number or null).
* Python floats are modelled as rationals (`ℚ`); only comparisons and a few
  exact products occur, so no rounding behaviour is relevant.
* Raising an exception is modelled with `Except`.
* Database tables are lists of rows; the session has `autoflush=False`
  (`database.py`), so a query during a request sees only rows committed before
  the request plus identity-mapped attribute updates, never pending inserts.
* `datetime.utcnow()` timestamps are abstract ticks (`ℕ`) passed as parameters.
-/

instance {ε α : Type} [DecidableEq ε] [DecidableEq α] : DecidableEq (Except ε α) := fun x y =>
  match x, y with
  | Except.error a, Except.error b =>
      if h : a = b then isTrue (by rw [h]) else isFalse (by simp [h])
  | Except.error _, Except.ok _ => isFalse (by simp)
  | Except.ok _, Except.error _ => isFalse (by simp)
  | Except.ok a, Except.ok b =>
      if h : a = b then isTrue (by rw [h]) else isFalse (by simp [h])

/-! ### Python string primitives (str.strip, str.lower, substring test) -/

/-- Python `str.strip()`: remove leading and trailing whitespace. -/
def pyStrip (s : String) : String :=
  ⟨((s.data.dropWhile Char.isWhitespace).reverse.dropWhile Char.isWhitespace).reverse⟩

/-- Python `str.lower()` (character-wise lowercasing). -/
def pyLower (s : String) : String :=
  ⟨s.data.map Char.toLower⟩

/-- The normalization used by the translation cache: `text.strip().lower()`. -/
def pyNormalize (s : String) : String :=
  pyLower (pyStrip s)

/-- Whether the character list `hay` starts with the character list `pat`. -/
def startsWithChars : List Char → List Char → Bool
  | _, [] => true
  | [], _ :: _ => false
  | c :: cs, p :: ps => c = p && startsWithChars cs ps

/-- Whether `pat` occurs as a contiguous sublist of `hay` (Python `in` on str). -/
def containsChars : List Char → List Char → Bool
  | [], pat => pat.isEmpty
  | hay@(_ :: rest), pat => startsWithChars hay pat || containsChars rest pat

/-- Python `pat in s` substring test. -/
def strContains (s pat : String) : Bool :=
  containsChars s.data pat.data

/-- Truthiness of an optional string: a missing (or null) field and the empty
string are falsy, any other string is truthy. -/
def truthyStr : Option String → Bool
  | Option.none => false
  | some s => s ≠ ""

/-! ### Numeric dict values: a number or Python `None` -/

/-- A numeric dict value as delivered by external APIs: either null (`None`,
e.g. a Google place without a rating) or a number. -/
inductive PyNum where
  | null : PyNum
  | num : ℚ → PyNum
deriving DecidableEq

/-- Python truthiness of a numeric-or-null value: `None` and `0` are falsy. -/
def PyNum.truthy : PyNum → Bool
  | PyNum.null => false
  | PyNum.num q => q ≠ 0

/-- Python `a or b` on numeric-or-null values. -/
def pyOrNum (a b : PyNum) : PyNum :=
  if a.truthy then a else b

/-! ### Candidate records (the dicts produced by the search collaborators) -/

/-- A raw search candidate as produced by `_get_place_details` or
`_generate_mock_results`; every field other than the name may be absent. -/
structure Candidate where
  name : String
  description : Option String
  category : Option String
  types : Option (List String)
  location_name : Option String
  address : Option String
  latitude : Option ℚ
  longitude : Option ℚ
  external_id : Option String
  external_source : Option String
  external_rating : Option PyNum
  external_review_count : Option PyNum
  estimated_cost : Option ℚ
  estimated_duration_hours : Option ℚ
  difficulty_level : Option String
  age_appropriate : Option String
  primary_image_url : Option String
  image_urls : Option (List String)
deriving DecidableEq

/-- A candidate with no optional data, used to build concrete examples. -/
def baseCand (nm : String) : Candidate :=
  { name := nm, description := Option.none, category := Option.none,
    types := Option.none, location_name := Option.none, address := Option.none,
    latitude := Option.none, longitude := Option.none,
    external_id := Option.none, external_source := Option.none,
    external_rating := Option.none, external_review_count := Option.none,
    estimated_cost := Option.none, estimated_duration_hours := Option.none,
    difficulty_level := Option.none, age_appropriate := Option.none,
    primary_image_url := Option.none, image_urls := Option.none }

/-! ### Quality scorer (`translation_service.calculate_quality_score`) -/

/-- Python `str(types)` for a list of strings, e.g. `['a', 'b']`. -/
def pyStrOfStrList (ts : List String) : String :=
  "[" ++ String.intercalate ", " (ts.map (fun t => "'" ++ t ++ "'")) ++ "]"

/-- The string the scorer inspects: `str(activity.get("types", []))`. -/
def typesStr (a : Candidate) : String :=
  match a.types with
  | Option.none => "[]"
  | some ts => pyStrOfStrList ts

/-- Effective rating used by the scorer:
`external_rating or activity.get("external_rating", 0)`. -/
def effectiveRating (a : Candidate) (external_rating : PyNum) : PyNum :=
  pyOrNum external_rating (a.external_rating.getD (PyNum.num 0))

/-- Effective review count used by the scorer:
`review_count or activity.get("external_review_count", 0)`. -/
def effectiveReviews (a : Candidate) (review_count : PyNum) : PyNum :=
  pyOrNum review_count (a.external_review_count.getD (PyNum.num 0))

/-- Rating contribution of the quality score (spec §4.1, max 40). -/
def ratingPoints (r : ℚ) : ℤ :=
  if mkRat 9 2 ≤ r then 40 else if 4 ≤ r then 30 else if mkRat 7 2 ≤ r then 20
  else if 3 ≤ r then 10 else 0

/-- Review-count contribution of the quality score (spec §4.1, max 20). -/
def reviewPoints (n : ℚ) : ℤ :=
  if 1000 ≤ n then 20 else if 500 ≤ n then 15 else if 100 ≤ n then 10
  else if 50 ≤ n then 5 else 0

/-- Family-friendliness contribution of the quality score (spec §4.1, max 20). -/
def familyPoints (a : Candidate) : ℤ :=
  let ts := pyLower (typesStr a)
  if strContains ts "family" || strContains ts "child" then 20
  else if strContains ts "tourist_attraction" then 15
  else if a.category.getD "" = "sightseeing" ∨ a.category.getD "" = "food" then 10
  else 0

/-- Completeness contribution of the quality score (spec §4.1, max 20). -/
def completenessPoints (a : Candidate) : ℤ :=
  (if truthyStr a.description then 10 else 0)
    + (if truthyStr a.primary_image_url then 5 else 0)
    + (if truthyStr a.address || truthyStr a.location_name then 5 else 0)

/-- `TranslationService.calculate_quality_score`, translated statement by
statement.  The sequential `if rating >= 4.5 ... elif ...` chains compare a
possibly-null value against a number; when the effective rating or review
count is null, Python raises `TypeError`, modelled by `Except.error ()`. -/
def calculate_quality_score (activity : Candidate)
    (external_rating review_count : PyNum) : Except Unit ℤ :=
  match effectiveRating activity external_rating with
  | PyNum.null => Except.error ()
  | PyNum.num r =>
    let s1 : ℤ := if mkRat 9 2 ≤ r then 40 else if 4 ≤ r then 30
      else if mkRat 7 2 ≤ r then 20 else if 3 ≤ r then 10 else 0
    match effectiveReviews activity review_count with
    | PyNum.null => Except.error ()
    | PyNum.num n =>
      let s2 : ℤ := if 1000 ≤ n then 20 else if 500 ≤ n then 15
        else if 100 ≤ n then 10 else if 50 ≤ n then 5 else 0
      let ts := pyLower (typesStr activity)
      let s3 : ℤ :=
        if strContains ts "family" || strContains ts "child" then 20
        else if strContains ts "tourist_attraction" then 15
        else if activity.category.getD "" = "sightseeing"
            ∨ activity.category.getD "" = "food" then 10
        else 0
      let s4 : ℤ := (if truthyStr activity.description then 10 else 0)
        + (if truthyStr activity.primary_image_url then 5 else 0)
        + (if truthyStr activity.address || truthyStr activity.location_name
            then 5 else 0)
      Except.ok (min (0 + s1 + s2 + s3 + s4) 100)

/-! ### Search selection (`search_service.smart_search_activities`, steps 1-5) -/

/-- A candidate after the scoring loop: the pipeline stores the computed
quality score on the result (`result["quality_score"] = quality_score`). -/
structure ScoredResult where
  cand : Candidate
  quality_score : ℤ
deriving DecidableEq

/-- The ordering used by `quality_filtered.sort(key=..., reverse=True)`:
`a` may come before `b` exactly when `a`'s score is at least `b`'s. -/
def qualityGE (a b : ScoredResult) : Prop :=
  b.quality_score ≤ a.quality_score

instance : DecidableRel qualityGE := fun a b =>
  inferInstanceAs (Decidable (b.quality_score ≤ a.quality_score))

instance : IsTotal ScoredResult qualityGE :=
  ⟨fun a b => le_total b.quality_score a.quality_score⟩

instance : IsTrans ScoredResult qualityGE :=
  ⟨fun _ _ _ h1 h2 => le_trans h2 h1⟩

/-- `SearchService._filter_results`: the optional category filter (skipped
when the category argument is falsy) followed by the optional budget filters
(`r.get("estimated_cost", 0)` compared against the bounds). -/
def filter_results (results : List ScoredResult) (category : Option String)
    (budget_min budget_max : Option ℚ) : List ScoredResult :=
  let f1 := match category with
    | some c => if c = "" then results
        else results.filter (fun r => r.cand.category = some c)
    | Option.none => results
  let f2 := match budget_min with
    | some m => f1.filter (fun r => m ≤ r.cand.estimated_cost.getD 0)
    | Option.none => f1
  match budget_max with
  | some m => f2.filter (fun r => r.cand.estimated_cost.getD 0 ≤ m)
  | Option.none => f2

/-- Steps 2-5 of `smart_search_activities` on the scored results: quality
filter, stable sort by descending quality score, category/budget filter,
truncation to `limit` — in exactly the code's order (sort before the
category/budget filter). -/
def smart_search_selection (scored : List ScoredResult) (min_quality_score : ℤ)
    (category : Option String) (budget_min budget_max : Option ℚ)
    (limit : ℕ) : List ScoredResult :=
  let quality_filtered := scored.filter
    (fun r => min_quality_score ≤ r.quality_score)
  let sorted := List.insertionSort qualityGE quality_filtered
  let filtered := filter_results sorted category budget_min budget_max
  filtered.take limit

/-- The selection in the order the spec states it (§4.2 steps 4-6): quality
filter, then category/budget filter, then rank by descending score with a
stable sort, then truncate. -/
def spec_order_selection (scored : List ScoredResult) (min_quality_score : ℤ)
    (category : Option String) (budget_min budget_max : Option ℚ)
    (limit : ℕ) : List ScoredResult :=
  let quality_filtered := scored.filter
    (fun r => min_quality_score ≤ r.quality_score)
  let filtered := filter_results quality_filtered category budget_min budget_max
  (List.insertionSort qualityGE filtered).take limit

/-! ### Persistence (`search_service._save_recommendations`) -/

/-- A stored `ActivityRecommendation` row (`models/activity_recommendation.py`),
restricted to the columns the pipeline writes. -/
structure RecRow where
  trip_id : ℕ
  name : String
  description : Option String
  category : String
  location_name : Option String
  address : Option String
  latitude : Option ℚ
  longitude : Option ℚ
  external_id : Option String
  external_source : String
  external_rating : PyNum
  external_review_count : PyNum
  estimated_cost : ℚ
  estimated_duration_hours : Option ℚ
  difficulty_level : Option String
  age_appropriate : Option String
  primary_image_url : Option String
  image_urls : Option (List String)
  quality_score : ℤ
  search_query : Option String
  discovery_date : ℕ
  updated_at : ℕ
  description_zh : Option String
  cultural_notes_zh : Option String
  tips_for_chinese_travelers : Option String
deriving DecidableEq

/-- The logical deduplication key: `(trip_id, name, address)`. -/
def recKey (row : RecRow) : ℕ × String × Option String :=
  (row.trip_id, row.name, row.address)

/-- The update applied to a re-discovered row: only `search_query` and
`updated_at` are assigned. -/
def updateExisting (row : RecRow) (search_query : String) (now : ℕ) : RecRow :=
  { row with search_query := some search_query, updated_at := now }

/-- The fallback of the category expression:
`result.get("types", ["general"])[0] if isinstance(result.get("types"), list)
else "general"`.  Indexing an empty list raises `IndexError`. -/
def categoryFallback (c : Candidate) : Except Unit String :=
  match c.types with
  | Option.none => Except.ok "general"
  | some [] => Except.error ()
  | some (t :: _) => Except.ok t

/-- `result.get("category") or (...)`: a truthy category field wins, otherwise
the types-based fallback is evaluated. -/
def categoryOf (c : Candidate) : Except Unit String :=
  match c.category with
  | some s => if s = "" then categoryFallback c else Except.ok s
  | Option.none => categoryFallback c

/-- The freshly inserted `ActivityRecommendation` built from a surviving
candidate (the keyword arguments of the `ActivityRecommendation(...)` call). -/
def newRecRow (tid : ℕ) (search_query : String) (now : ℕ)
    (r : ScoredResult) (cat : String) : RecRow :=
  { trip_id := tid,
    name := r.cand.name,
    description := r.cand.description,
    category := cat,
    location_name := r.cand.location_name,
    address := r.cand.address,
    latitude := r.cand.latitude,
    longitude := r.cand.longitude,
    external_id := r.cand.external_id,
    external_source := r.cand.external_source.getD "search",
    external_rating := r.cand.external_rating.getD PyNum.null,
    external_review_count := r.cand.external_review_count.getD PyNum.null,
    estimated_cost := r.cand.estimated_cost.getD 0,
    estimated_duration_hours := r.cand.estimated_duration_hours,
    difficulty_level := r.cand.difficulty_level,
    age_appropriate := r.cand.age_appropriate,
    primary_image_url := r.cand.primary_image_url,
    image_urls := match r.cand.image_urls with
      | some l => if l = ([] : List String) then Option.none else some l
      | Option.none => Option.none,
    quality_score := r.quality_score,
    search_query := some search_query,
    discovery_date := now,
    updated_at := now,
    description_zh := Option.none,
    cultural_notes_zh := Option.none,
    tips_for_chinese_travelers := Option.none }

/-- The `db.query(...).filter(trip_id, name, address).first()` lookup combined
with the in-place update of the found row: returns the updated committed table
on a hit and `none` on a miss. -/
def updateFirstMatch (tid : ℕ) (nm : String) (addr : Option String)
    (search_query : String) (now : ℕ) : List RecRow → Option (List RecRow)
  | [] => Option.none
  | row :: rest =>
    if row.trip_id = tid ∧ row.name = nm ∧ row.address = addr then
      some (updateExisting row search_query now :: rest)
    else
      (updateFirstMatch tid nm addr search_query now rest).map (row :: ·)

/-- One iteration of the `for result in results` loop of
`_save_recommendations`.  The state is `(committed, pending)`: because the
session runs with `autoflush=False`, the lookup sees only the committed table,
while `db.add(...)` only appends to the pending list. -/
def saveStep (tid : ℕ) (search_query : String) (now : ℕ)
    (st : List RecRow × List RecRow) (r : ScoredResult) :
    Except Unit (List RecRow × List RecRow) :=
  match updateFirstMatch tid r.cand.name r.cand.address search_query now st.1 with
  | some committed => Except.ok (committed, st.2)
  | Option.none =>
    match categoryOf r.cand with
    | Except.error e => Except.error e
    | Except.ok cat =>
        Except.ok (st.1, st.2 ++ [newRecRow tid search_query now r cat])

/-- The `for result in results` loop of `_save_recommendations`. -/
def saveLoop (tid : ℕ) (search_query : String) (now : ℕ) :
    List ScoredResult → List RecRow × List RecRow →
      Except Unit (List RecRow × List RecRow)
  | [], st => Except.ok st
  | r :: rest, st =>
    match saveStep tid search_query now st r with
    | Except.error e => Except.error e
    | Except.ok st1 => saveLoop tid search_query now rest st1

/-- `SearchService._save_recommendations`: iterate the lookup/update/insert
loop over the surviving results, then `db.commit()` appends the pending
inserts to the committed table. -/
def save_recommendations (tid : ℕ) (search_query : String) (now : ℕ)
    (committed : List RecRow) (results : List ScoredResult) :
    Except Unit (List RecRow) :=
  match saveLoop tid search_query now results (committed, []) with
  | Except.error e => Except.error e
  | Except.ok st => Except.ok (st.1 ++ st.2)

/-! ### Voting (`routes/voting.py`, `models/activity_vote.py`,
`models/activity_recommendation.py`) -/

/-- An `ActivityVote` row. -/
structure ActivityVote where
  recommendation_id : ℕ
  family_member_id : ℕ
  vote_type : String
deriving DecidableEq

/-- The lookup of an existing vote for `(recommendation_id, family_member_id)`
combined with the in-place update of its `vote_type`; `none` when the pair has
no vote yet. -/
def voteUpdateFirst (rid mid : ℕ) (vt : String) :
    List ActivityVote → Option (List ActivityVote)
  | [] => Option.none
  | v :: rest =>
    if v.recommendation_id = rid ∧ v.family_member_id = mid then
      some ({ v with vote_type := vt } :: rest)
    else
      (voteUpdateFirst rid mid vt rest).map (v :: ·)

/-- `POST /api/voting/votes` (`create_vote`): validate the vote type and the
referenced recommendation and family member, then update the existing vote of
the pair in place, or insert exactly one new row. -/
def create_vote (recIds memberIds : List ℕ) (votes : List ActivityVote)
    (rid mid : ℕ) (vt : String) : Except String (List ActivityVote) :=
  if ¬(vt = "positive" ∨ vt = "negative" ∨ vt = "neutral") then
    Except.error "Vote type must be 'positive', 'negative', or 'neutral'"
  else if rid ∉ recIds then Except.error "Recommendation not found"
  else if mid ∉ memberIds then Except.error "Family member not found"
  else
    match voteUpdateFirst rid mid vt votes with
    | some votes => Except.ok votes
    | Option.none =>
        Except.ok (votes ++ [{ recommendation_id := rid,
                               family_member_id := mid, vote_type := vt }])

/-- Number of stored votes for a given (recommendation, member) pair. -/
def votePairCount (votes : List ActivityVote) (rid mid : ℕ) : ℕ :=
  votes.countP (fun v => v.recommendation_id = rid ∧ v.family_member_id = mid)

/-- The result of `ActivityRecommendation.vote_summary`. -/
structure VoteSummary where
  total : ℕ
  positive : ℕ
  negative : ℕ
  score : ℤ
deriving DecidableEq

/-- The state of a recommendation needed by the vote properties: its loaded
votes and its optional external rating. -/
structure RecommendationState where
  votes : List ActivityVote
  external_rating : Option ℚ
deriving DecidableEq

/-- `ActivityRecommendation.vote_summary`: early return for no votes, else
count the positive and negative votes. -/
def vote_summary (rec : RecommendationState) : VoteSummary :=
  if rec.votes = [] then { total := 0, positive := 0, negative := 0, score := 0 }
  else
    let positive := rec.votes.countP (fun v => v.vote_type = "positive")
    let negative := rec.votes.countP (fun v => v.vote_type = "negative")
    { total := rec.votes.length, positive := positive, negative := negative,
      score := (positive : ℤ) - (negative : ℤ) }

/-- Python `x or 0` on an optional number. -/
def pyOrZero (o : Option ℚ) : ℚ :=
  match o with
  | some q => if q = 0 then 0 else q
  | Option.none => 0

/-- `ActivityRecommendation.popularity_score`:
`vote_summary["score"] + (external_rating or 0) * 0.2`. -/
def popularity_score (rec : RecommendationState) : ℚ :=
  ((vote_summary rec).score : ℚ) + pyOrZero rec.external_rating * mkRat 2 10

/-! ### Dashboard statistics (`routes/voting.py` `get_voting_dashboard`,
`routes/favorites.py` `get_favorites_dashboard`) -/

/-- A recommendation as seen by the voting dashboard: its active flag and its
votes. -/
structure DashRec where
  is_active : Bool
  votes : List ActivityVote
deriving DecidableEq

/-- A recommendation as seen by the favorites dashboard: its active flag and
the member ids that favorited it. -/
structure DashFavRec where
  is_active : Bool
  favorites : List ℕ
deriving DecidableEq

/-- `voting_statistics["voting_participation_rate"]`: the dashboard filters to
active recommendations, totals their votes, and divides by
`total_recommendations * total_family_members`, guarded to `0` unless both
factors are positive. -/
def voting_participation_rate (recs : List DashRec) (memberCount : ℕ) : ℚ :=
  let active := recs.filter (fun r => r.is_active)
  let total_recommendations := active.length
  let total_votes := (active.map (fun r => r.votes.length)).sum
  if 0 < total_recommendations ∧ 0 < memberCount then
    (total_votes : ℚ) / ((total_recommendations : ℚ) * (memberCount : ℚ))
  else 0

/-- `favorite_statistics["favorite_participation_rate"]` of the favorites
dashboard, with the same zero guard. -/
def favorite_participation_rate (recs : List DashFavRec) (memberCount : ℕ) : ℚ :=
  let active := recs.filter (fun r => r.is_active)
  let total_recommendations := active.length
  let total_favorites := (active.map (fun r => r.favorites.length)).sum
  if 0 < total_recommendations ∧ 0 < memberCount then
    (total_favorites : ℚ) / ((total_recommendations : ℚ) * (memberCount : ℚ))
  else 0

/-! ### Translation cache (`models/translation_cache.py`) -/

/-- A `TranslationCache` row. -/
structure TranslationCacheEntry where
  source_text_hash : String
  source_language : String
  target_language : String
  source_text : String
  translated_text : String
  translation_service : Option String
  translation_model : Option String
  usage_count : ℤ
  last_used_at : ℕ
  created_at : ℕ
  updated_at : ℕ
deriving DecidableEq

/-- `TranslationCache.generate_content_hash`: the empty string hashes to `""`;
otherwise the text is normalized (`strip().lower()`) and hashed with SHA-256.
The hash is modelled as the normalized text itself (SHA-256 is injective for
the purposes of the cache, and only equality of hashes is ever used). -/
def generate_content_hash (text : String) : String :=
  if text = "" then "" else pyNormalize text

/-- Whether a cache row matches a lookup key. -/
def cacheKeyMatches (e : TranslationCacheEntry) (h sl tl : String) : Prop :=
  e.source_text_hash = h ∧ e.source_language = sl ∧ e.target_language = tl

instance (e : TranslationCacheEntry) (h sl tl : String) :
    Decidable (cacheKeyMatches e h sl tl) :=
  inferInstanceAs (Decidable (_ ∧ _ ∧ _))

/-- The `.first()` lookup of `get_cached_translation` combined with the hit
bookkeeping: on the first matching row, increment `usage_count` and set
`last_used_at`, returning the cached translation. -/
def cacheLookupUpdate (h sl tl : String) (now : ℕ) :
    List TranslationCacheEntry → Option String × List TranslationCacheEntry
  | [] => (Option.none, [])
  | e :: rest =>
    if cacheKeyMatches e h sl tl then
      (some e.translated_text,
       { e with usage_count := e.usage_count + 1, last_used_at := now } :: rest)
    else
      let p := cacheLookupUpdate h sl tl now rest
      (p.1, e :: p.2)

/-- `TranslationCache.get_cached_translation`: blank texts (empty or
whitespace-only) never hit the cache; otherwise look up by the content hash
and the language pair. -/
def get_cached_translation (db : List TranslationCacheEntry) (now : ℕ)
    (source_text source_lang target_lang : String) :
    Option String × List TranslationCacheEntry :=
  if source_text = "" ∨ pyStrip source_text = "" then (Option.none, db)
  else cacheLookupUpdate (generate_content_hash source_text)
    source_lang target_lang now db

/-- The row inserted by `cache_translation` on a fresh key (column defaults:
`usage_count = 1`, `last_used_at`/`created_at`/`updated_at` = now). -/
def mkNewCacheEntry (h sl tl source_text translated_text : String)
    (service model : Option String) (now : ℕ) : TranslationCacheEntry :=
  { source_text_hash := h, source_language := sl, target_language := tl,
    source_text := source_text, translated_text := translated_text,
    translation_service := service, translation_model := model,
    usage_count := 1, last_used_at := now, created_at := now, updated_at := now }

/-- The update-or-insert step of `cache_translation`: overwrite the first row
with the same key, else append a fresh row. -/
def cacheUpsert (h sl tl source_text translated_text : String)
    (service model : Option String) (now : ℕ) :
    List TranslationCacheEntry → List TranslationCacheEntry
  | [] => [mkNewCacheEntry h sl tl source_text translated_text service model now]
  | e :: rest =>
    if cacheKeyMatches e h sl tl then
      { e with translated_text := translated_text,
               translation_service := service, translation_model := model,
               updated_at := now } :: rest
    else e :: cacheUpsert h sl tl source_text translated_text service model now rest

/-- `TranslationCache.cache_translation`: raises `ValueError` when either text
is falsy, otherwise upserts under the content hash and the language pair. -/
def cache_translation (db : List TranslationCacheEntry) (now : ℕ)
    (source_text translated_text source_lang target_lang : String)
    (service model : Option String) :
    Except Unit (List TranslationCacheEntry) :=
  if source_text = "" ∨ translated_text = "" then Except.error ()
  else Except.ok (cacheUpsert (generate_content_hash source_text)
    source_lang target_lang source_text translated_text service model now db)

/-! ### Translation service (`translation_service.py`) -/

/-- The per-field body of the loop in `translate_activity_content` (lines
88-114): check the cache; on a miss call the remote model, and cache a truthy
translation.  Returns the translated text (if any), the cache table, and the
number of remote model calls made.  A `ValueError` raised by
`cache_translation` escapes as `Except.error` carrying the session state at
the raise. -/
def translateFieldWithCache (remote : String → Option String) (now : ℕ)
    (db : List TranslationCacheEntry) (source_text source_lang target_lang : String) :
    Except (List TranslationCacheEntry × ℕ)
      (Option String × List TranslationCacheEntry × ℕ) :=
  match get_cached_translation db now source_text source_lang target_lang with
  | (some cached, db1) => Except.ok (some cached, db1, 0)
  | (Option.none, db1) =>
    match remote source_text with
    | some translation =>
      if translation = "" then Except.ok (Option.none, db1, 1)
      else
        match cache_translation db1 now source_text translation
            source_lang target_lang (some "openai") (some "gpt-4") with
        | Except.ok db2 => Except.ok (some translation, db2, 1)
        | Except.error _ => Except.error (db1, 1)
    | Option.none => Except.ok (Option.none, db1, 1)

/-- An activity dict as passed to `batch_translate_activities` by the search
pipeline, together with the translated fields the service may add. -/
structure TActivity where
  name : Option String
  description : Option String
  external_rating : Option ℚ
  external_review_count : Option ℚ
  types : Option String
  category : Option String
  description_zh : Option String
  name_zh : Option String
  cultural_notes_zh : Option String
  tips_for_chinese_travelers : Option String
deriving DecidableEq, Inhabited

/-- The external behaviour the translation service depends on: the OpenAI
translation call, the OpenAI cultural-content call (returning the raw content
string), and `json.loads` restricted to the two `.get` lookups performed on a
parsed cultural-content dict. -/
structure TransOracles where
  remote : String → Option String
  cultural : String → String → Option String
  jsonParse : String → Option (Option String × Option String)

/-- The generation half of `_generate_cultural_content` (its `try` block):
call the model, parse the JSON, cache the raw string on success; any failure
(bad status, unparsable JSON, exception) yields `None`. -/
def culturalGenerate (O : TransOracles) (now : ℕ)
    (db : List TranslationCacheEntry) (activity_name description : String) :
    Option (Option String × Option String) × List TranslationCacheEntry × ℕ :=
  match O.cultural activity_name description with
  | some content_str =>
    match O.jsonParse content_str with
    | some pair =>
      match cache_translation db now ("cultural_content_" ++ activity_name)
          content_str "en" "zh" (some "openai") (some "gpt-4") with
      | Except.ok db1 => (some pair, db1, 1)
      | Except.error _ => (Option.none, db, 1)
    | Option.none => (Option.none, db, 1)
  | Option.none => (Option.none, db, 1)

/-- `TranslationService._generate_cultural_content`: look up the synthetic
cache key; a cached value that parses is returned without a model call, an
unparsable cached value falls through to generation. -/
def generate_cultural_content (O : TransOracles) (now : ℕ)
    (db : List TranslationCacheEntry) (activity_name description : String) :
    Option (Option String × Option String) × List TranslationCacheEntry × ℕ :=
  match get_cached_translation db now ("cultural_content_" ++ activity_name)
      "en" "zh" with
  | (some cached, db1) =>
    match O.jsonParse cached with
    | some pair => (some pair, db1, 0)
    | Option.none => culturalGenerate O now db1 activity_name description
  | (Option.none, db1) => culturalGenerate O now db1 activity_name description

/-- `TranslationService.translate_activity_content`: translate the
`description` and `name` fields (cache-first), then, for Chinese targets with
a truthy name, attach the cultural content.  The outer `try/except` returns
the original activity data when an exception escapes a field step. -/
def translate_activity_content (O : TransOracles) (now : ℕ)
    (db : List TranslationCacheEntry) (a : TActivity)
    (source_lang target_lang : String) :
    TActivity × List TranslationCacheEntry × ℕ :=
  match (if truthyStr a.description then
      translateFieldWithCache O.remote now db (a.description.getD "")
        source_lang target_lang
    else Except.ok (Option.none, db, 0)) with
  | Except.error (db1, c1) => (a, db1, c1)
  | Except.ok (dres, db1, c1) =>
    let a1 := match dres with
      | some t => { a with description_zh := some t }
      | Option.none => a
    match (if truthyStr a.name then
        translateFieldWithCache O.remote now db1 (a.name.getD "")
          source_lang target_lang
      else Except.ok (Option.none, db1, 0)) with
    | Except.error (db2, c2) => (a, db2, c1 + c2)
    | Except.ok (nres, db2, c2) =>
      let a2 := match nres with
        | some t => { a1 with name_zh := some t }
        | Option.none => a1
      if target_lang = "zh" ∧ truthyStr a.name then
        match generate_cultural_content O now db2 (a.name.getD "")
            (a.description.getD "") with
        | (some pair, db3, c3) =>
          ({ a2 with cultural_notes_zh := pair.1,
                     tips_for_chinese_travelers := pair.2 }, db3, c1 + c2 + c3)
        | (Option.none, db3, c3) => (a2, db3, c1 + c2 + c3)
      else (a2, db2, c1 + c2)

/-- Sequential translation of a list of activities, threading the cache table
and summing the remote calls; the itemwise reference behaviour of the batch
loop. -/
def seqTranslate (O : TransOracles) (now : ℕ) (source_lang target_lang : String)
    (db : List TranslationCacheEntry) :
    List TActivity → List TActivity × List TranslationCacheEntry × ℕ
  | [] => ([], db, 0)
  | a :: rest =>
    let p := translate_activity_content O now db a source_lang target_lang
    let q := seqTranslate O now source_lang target_lang p.2.1 rest
    (p.1 :: q.1, q.2.1, p.2.2 + q.2.2)

/-- The `asyncio.gather(..., return_exceptions=True)` of one batch: each task
is `translate_activity_content`, which handles its own exceptions, so every
gathered result is a value wrapped in `Except.ok`. -/
def gatherTranslate (O : TransOracles) (now : ℕ)
    (source_lang target_lang : String) (db : List TranslationCacheEntry) :
    List TActivity →
      List (Except Unit TActivity) × List TranslationCacheEntry × ℕ
  | [] => ([], db, 0)
  | a :: rest =>
    let p := translate_activity_content O now db a source_lang target_lang
    let q := gatherTranslate O now source_lang target_lang p.2.1 rest
    (Except.ok p.1 :: q.1, q.2.1, p.2.2 + q.2.2)

/-- The `for result in batch_results` body of `batch_translate_activities`: a
value is appended; an exception appends
`batch[len(translated_activities) % len(batch)]`. -/
def appendBatchResult (translated batch : List TActivity)
    (r : Except Unit TActivity) : List TActivity :=
  match r with
  | Except.ok v => translated ++ [v]
  | Except.error _ =>
      translated ++ [batch.getD (translated.length % batch.length) default]

/-- The chunk loop of `batch_translate_activities`:
`for i in range(0, len(activities), max_batch_size)` with
`max_batch_size = 10`. -/
def batchLoopTrans (O : TransOracles) (now : ℕ)
    (source_lang target_lang : String) (db : List TranslationCacheEntry)
    (translated : List TActivity) (remaining : List TActivity) (calls : ℕ) :
    List TActivity × List TranslationCacheEntry × ℕ :=
  match remaining with
  | [] => (translated, db, calls)
  | a :: rest =>
    let batch := (a :: rest).take 10
    let g := gatherTranslate O now source_lang target_lang db batch
    let translated1 := g.1.foldl (fun acc r => appendBatchResult acc batch r)
      translated
    batchLoopTrans O now source_lang target_lang g.2.1 translated1
      ((a :: rest).drop 10) (calls + g.2.2)
termination_by remaining.length
decreasing_by
  simp only [List.length_drop, List.length_cons]
  omega

/-- `TranslationService.batch_translate_activities`: empty input short-circuits,
otherwise process consecutive chunks of at most 10 activities. -/
def batch_translate_activities (O : TransOracles) (now : ℕ)
    (source_lang target_lang : String) (db : List TranslationCacheEntry)
    (activities : List TActivity) :
    List TActivity × List TranslationCacheEntry × ℕ :=
  if activities = [] then (activities, db, 0)
  else batchLoopTrans O now source_lang target_lang db [] activities 0

/-! ### Concrete instances used by individual properties -/

/-- A Google place whose `rating`/`user_ratings_total` are absent, so
`_get_place_details` stores `external_rating = None` and
`external_review_count = None` on the candidate dict. -/
def nullRatingPlace : Candidate :=
  { baseCand "Unrated Shrine" with
    description := some "A quiet shrine",
    address := some "Osaka",
    external_source := some "google_places",
    external_rating := some PyNum.null,
    external_review_count := some PyNum.null }

/-- A fully populated candidate for evaluating the scorer decomposition. -/
def scoredPlaceC2 : Candidate :=
  { baseCand "Osaka Aquarium" with
    description := some "Large aquarium",
    category := some "sightseeing",
    address := some "1-1-10 Kaigandori",
    primary_image_url := some "http://img",
    external_rating := some (PyNum.num (mkRat 43 10)),
    external_review_count := some (PyNum.num 15420) }

/-- A recommendation with three positive votes, one negative vote and
external rating 4.5. -/
def sampleVotedRec : RecommendationState :=
  { votes := [{ recommendation_id := 1, family_member_id := 1, vote_type := "positive" },
              { recommendation_id := 1, family_member_id := 2, vote_type := "positive" },
              { recommendation_id := 1, family_member_id := 3, vote_type := "positive" },
              { recommendation_id := 1, family_member_id := 4, vote_type := "negative" }],
    external_rating := some (mkRat 9 2) }

/-- A surviving candidate whose (name, address) pair repeats in one
invocation of the persistence step. -/
def dupScoredC4 : ScoredResult :=
  { cand := { baseCand "Osaka Castle" with
      category := some "sightseeing",
      address := some "1-1 Osakajo" },
    quality_score := 80 }

/-- The committed table produced by saving `[dupScoredC4, dupScoredC4]` into
an empty table. -/
def dupSavedC4 : List RecRow :=
  [newRecRow 7 "castle" 3 dupScoredC4 "sightseeing",
   newRecRow 7 "castle" 3 dupScoredC4 "sightseeing"]

/-- A distinct surviving candidate for the witness of the amended
deduplication property. -/
def freshScoredC4 : ScoredResult :=
  { cand := { baseCand "Dotonbori" with
      category := some "food",
      address := some "Dotonbori, Chuo Ward" },
    quality_score := 85 }

/-- The table after saving `[freshScoredC4]` into an empty table. -/
def freshSavedC4 : List RecRow :=
  [newRecRow 7 "food" 3 freshScoredC4 "food"]

/-- A committed recommendation row used by the frame property witness. -/
def storedRowC10 : RecRow :=
  { newRecRow 9 "old query" 1
      { cand := { baseCand "Spa World" with
          category := some "rest",
          address := some "3-4-24 Ebisuhigashi",
          external_rating := some (PyNum.num 4) },
        quality_score := 70 } "rest"
    with description_zh := some "some translated text" }

/-- A re-discovered candidate with the same (name, address) pair as
`storedRowC10` but different metadata. -/
def rediscoveredC10 : ScoredResult :=
  { cand := { baseCand "Spa World" with
      category := some "rest",
      address := some "3-4-24 Ebisuhigashi",
      external_rating := some (PyNum.num 5),
      description := some "new description" },
    quality_score := 95 }

/-- A remote translator that always succeeds with `"T"`. -/
def constRemoteC5 : String → Option String := fun _ => some "T"

/-- Oracles for the batch-translation witness: every external call fails. -/
def failingOraclesC7 : TransOracles :=
  { remote := fun _ => Option.none,
    cultural := fun _ _ => Option.none,
    jsonParse := fun _ => Option.none }

/-! ## Properties -/

/-- C2: for every candidate whose effective rating and review count are
numbers, `calculate_quality_score` returns exactly the sum of the rating,
review-count, family-friendliness and completeness contributions, capped
at 100. -/
theorem calculate_quality_score_decomposition (a : Candidate)
    (external_rating review_count : PyNum) (r n : ℚ)
    (hr : effectiveRating a external_rating = PyNum.num r)
    (hn : effectiveReviews a review_count = PyNum.num n) :
    calculate_quality_score a external_rating review_count =
      Except.ok (min (ratingPoints r + reviewPoints n + familyPoints a
        + completenessPoints a) 100) := by
  unfold calculate_quality_score
  rw [hr, hn]
  simp only [ratingPoints, reviewPoints, familyPoints, completenessPoints,
    zero_add]

/-- Witness for C2 at a concrete candidate with rating 4.3 and 15420
reviews. -/
theorem calculate_quality_score_decomposition_witness :
    calculate_quality_score scoredPlaceC2 (PyNum.num (mkRat 43 10))
        (PyNum.num 15420) =
      Except.ok (min (ratingPoints (mkRat 43 10) + reviewPoints 15420
        + familyPoints scoredPlaceC2 + completenessPoints scoredPlaceC2) 100) :=
  calculate_quality_score_decomposition scoredPlaceC2 _ _ _ _
    (by decide) (by decide)

/-- C3: `calculate_quality_score` is not total: on a candidate whose
`external_rating`/`external_review_count` keys hold null (as Google Places
results without a rating do), the comparison chain raises `TypeError`
instead of returning a 0-100 score. -/
theorem calculate_quality_score_null_rating_raises :
    calculate_quality_score nullRatingPlace PyNum.null PyNum.null
        = Except.error ()
    ∧ calculate_quality_score nullRatingPlace (PyNum.num 4) PyNum.null
        = Except.error () := by
  constructor
  · decide
  · decide

/-- C8: `vote_summary` counts the votes and scores them as
positive - negative, and `popularity_score` adds one fifth of the external
rating (0 when absent); in particular 3 positive votes, 1 negative vote and
rating 4.5 give summary (4, 3, 1, 2) and popularity 2.9. -/
theorem vote_summary_popularity_spec :
    (∀ rec : RecommendationState,
      vote_summary rec =
        { total := rec.votes.length,
          positive := rec.votes.countP (fun v => v.vote_type = "positive"),
          negative := rec.votes.countP (fun v => v.vote_type = "negative"),
          score := (rec.votes.countP (fun v => v.vote_type = "positive") : ℤ)
            - (rec.votes.countP (fun v => v.vote_type = "negative") : ℤ) }
      ∧ popularity_score rec =
          ((vote_summary rec).score : ℚ)
            + rec.external_rating.getD 0 * mkRat 2 10)
    ∧ vote_summary sampleVotedRec
        = { total := 4, positive := 3, negative := 1, score := 2 }
    ∧ popularity_score sampleVotedRec = mkRat 29 10 := by
  refine ⟨fun rec => ⟨?_, ?_⟩, by decide, ?_⟩
  · unfold vote_summary
    by_cases h : rec.votes = []
    · simp [h]
    · simp [h]
  · unfold popularity_score pyOrZero
    cases h : rec.external_rating with
    | none => simp
    | some q =>
      by_cases hq : q = 0
      · simp [hq]
      · simp [hq]
  · have hs : vote_summary sampleVotedRec
        = { total := 4, positive := 3, negative := 1, score := 2 } := by decide
    unfold popularity_score
    rw [hs]
    show ((2 : ℤ) : ℚ) + pyOrZero sampleVotedRec.external_rating * mkRat 2 10
      = mkRat 29 10
    rw [show pyOrZero sampleVotedRec.external_rating = mkRat 9 2 from by decide]
    rw [Rat.mkRat_eq_divInt, Rat.mkRat_eq_divInt, Rat.mkRat_eq_divInt,
      Rat.divInt_eq_div, Rat.divInt_eq_div, Rat.divInt_eq_div]
    norm_num

/-- C9: the participation rates of the voting and favorites dashboards are
the vote (favorite) totals divided by active recommendations times members
when both factors are positive, and exactly 0 when either factor is 0. -/
theorem participation_rate_guard (recs : List DashRec)
    (frecs : List DashFavRec) (members : ℕ) :
    (((recs.filter (fun r => r.is_active)).length = 0 ∨ members = 0) →
        voting_participation_rate recs members = 0)
    ∧ (0 < (recs.filter (fun r => r.is_active)).length → 0 < members →
        voting_participation_rate recs members =
          (((recs.filter (fun r => r.is_active)).map
              (fun r => r.votes.length)).sum : ℚ)
            / (((recs.filter (fun r => r.is_active)).length : ℚ)
                * (members : ℚ)))
    ∧ (((frecs.filter (fun r => r.is_active)).length = 0 ∨ members = 0) →
        favorite_participation_rate frecs members = 0)
    ∧ (0 < (frecs.filter (fun r => r.is_active)).length → 0 < members →
        favorite_participation_rate frecs members =
          (((frecs.filter (fun r => r.is_active)).map
              (fun r => r.favorites.length)).sum : ℚ)
            / (((frecs.filter (fun r => r.is_active)).length : ℚ)
                * (members : ℚ))) := by
  refine ⟨?_, ?_, ?_, ?_⟩
  · intro h
    unfold voting_participation_rate
    rw [if_neg]
    omega
  · intro h1 h2
    unfold voting_participation_rate
    rw [if_pos ⟨h1, h2⟩]
  · intro h
    unfold favorite_participation_rate
    rw [if_neg]
    omega
  · intro h1 h2
    unfold favorite_participation_rate
    rw [if_pos ⟨h1, h2⟩]

/-- Witness for C9: with no recommendations and no members both rates are 0,
not an error. -/
theorem participation_rate_guard_witness :
    voting_participation_rate [] 0 = 0
    ∧ favorite_participation_rate [] 0 = 0 :=
  ⟨(participation_rate_guard [] [] 0).1 (Or.inl rfl),
   (participation_rate_guard [] [] 0).2.2.1 (Or.inl rfl)⟩


/-- A missing vote for the pair is exactly a zero pair count. -/
theorem voteUpdateFirst_eq_none_iff (rid mid : ℕ) (vt : String) :
    ∀ votes : List ActivityVote,
      voteUpdateFirst rid mid vt votes = Option.none
        ↔ votePairCount votes rid mid = 0 := by
  intro votes
  induction votes with
  | nil => simp [voteUpdateFirst, votePairCount]
  | cons v rest ih =>
    unfold voteUpdateFirst votePairCount
    by_cases h : v.recommendation_id = rid ∧ v.family_member_id = mid
    · simp [h, List.countP_cons]
    · rw [if_neg h, Option.map_eq_none', ih]
      unfold votePairCount
      simp [List.countP_cons, h]

/-- An in-place vote update keeps the length and every pair count and leaves
a vote of the requested pair and type in the table. -/
theorem voteUpdateFirst_eq_some (rid mid : ℕ) (vt : String) :
    ∀ votes votes' : List ActivityVote,
      voteUpdateFirst rid mid vt votes = some votes' →
      votes'.length = votes.length
      ∧ (∀ r m, votePairCount votes' r m = votePairCount votes r m)
      ∧ ∃ v ∈ votes', v.recommendation_id = rid ∧ v.family_member_id = mid
          ∧ v.vote_type = vt := by
  intro votes
  induction votes with
  | nil => intro votes' h; simp [voteUpdateFirst] at h
  | cons v rest ih =>
    intro votes' h
    unfold voteUpdateFirst at h
    by_cases hv : v.recommendation_id = rid ∧ v.family_member_id = mid
    · rw [if_pos hv, Option.some_inj] at h
      subst h
      refine ⟨by simp, fun r m => ?_,
        ⟨{ v with vote_type := vt }, List.mem_cons_self _ _, hv.1, hv.2, rfl⟩⟩
      unfold votePairCount
      simp [List.countP_cons]
    · rw [if_neg hv] at h
      rcases Option.map_eq_some'.mp h with ⟨rest', hrest, hcons⟩
      subst hcons
      rcases ih rest' hrest with ⟨hlen, hcnt, w, hw, hw1, hw2, hw3⟩
      refine ⟨by simp [hlen], fun r m => ?_, w, List.mem_cons_of_mem _ hw,
        hw1, hw2, hw3⟩
      unfold votePairCount
      simp only [List.countP_cons]
      unfold votePairCount at hcnt
      rw [hcnt]

/-- C6: `create_vote` keeps at most one vote per (recommendation, member)
pair: a pair with an existing vote gets its `vote_type` updated in place (no
new row), a pair without one gets exactly one new row; other pairs are
untouched. -/
theorem create_vote_uniqueness (recIds memberIds : List ℕ)
    (votes votes' : List ActivityVote) (rid mid : ℕ) (vt : String)
    (hok : create_vote recIds memberIds votes rid mid vt = Except.ok votes') :
    ((∀ r m, votePairCount votes r m ≤ 1) →
        ∀ r m, votePairCount votes' r m ≤ 1)
    ∧ (1 ≤ votePairCount votes rid mid → votes'.length = votes.length)
    ∧ (votePairCount votes rid mid = 0 → votes'.length = votes.length + 1)
    ∧ votePairCount votes' rid mid = max (votePairCount votes rid mid) 1
    ∧ (∀ r m, ¬(r = rid ∧ m = mid) →
        votePairCount votes' r m = votePairCount votes r m)
    ∧ ∃ v ∈ votes', v.recommendation_id = rid ∧ v.family_member_id = mid
        ∧ v.vote_type = vt := by
  unfold create_vote at hok
  split_ifs at hok
  cases hu : voteUpdateFirst rid mid vt votes with
  | some vs =>
    rw [hu] at hok
    injection hok with hok
    subst hok
    rcases voteUpdateFirst_eq_some rid mid vt votes vs hu with ⟨hlen, hcnt, hex⟩
    have hpos : votePairCount votes rid mid ≠ 0 := by
      intro h0
      rw [(voteUpdateFirst_eq_none_iff rid mid vt votes).mpr h0] at hu
      exact Option.noConfusion hu
    refine ⟨fun hb r m => ?_, fun _ => hlen, fun h0 => (hpos h0).elim, ?_,
      fun r m _ => hcnt r m, hex⟩
    · rw [hcnt r m]; exact hb r m
    · rw [hcnt rid mid]
      omega
  | none =>
    rw [hu] at hok
    injection hok with hok
    subst hok
    have h0 : votePairCount votes rid mid = 0 :=
      (voteUpdateFirst_eq_none_iff rid mid vt votes).mp hu
    have hcnt : ∀ r m, votePairCount
        (votes ++ [{ recommendation_id := rid, family_member_id := mid,
                     vote_type := vt }]) r m
        = votePairCount votes r m + (if rid = r ∧ mid = m then 1 else 0) := by
      intro r m
      unfold votePairCount
      rw [List.countP_append]
      simp [List.countP_cons]
    refine ⟨fun hb r m => ?_, fun h1 => by omega, fun _ => by simp, ?_, ?_, ?_⟩
    · rw [hcnt r m]
      by_cases hm : rid = r ∧ mid = m
      · rcases hm with ⟨hm1, hm2⟩
        subst hm1
        subst hm2
        simp [h0]
      · have := hb r m
        simp [hm]
        omega
    · rw [hcnt rid mid]
      simp [h0]
    · intro r m hne
      rw [hcnt r m]
      have : ¬(rid = r ∧ mid = m) := by
        intro hc
        exact hne ⟨hc.1.symm, hc.2.symm⟩
      simp [this]
    · exact ⟨_, List.mem_append_right _ (List.mem_cons_self _ _), rfl, rfl, rfl⟩

/-- Witness for C6: inserting a first vote for pair (1, 2) yields pair count
`max 0 1 = 1`. -/
theorem create_vote_uniqueness_witness :
    votePairCount [{ recommendation_id := 1, family_member_id := 2,
                     vote_type := "positive" }] 1 2
      = max (votePairCount [] 1 2) 1 :=
  (create_vote_uniqueness [1] [2] [] _ 1 2 "positive" (by decide)).2.2.2.1

/-- Inserting an element related to everything in the list puts it in front. -/
theorem orderedInsert_of_forall_rel {a : ScoredResult} :
    ∀ {l : List ScoredResult}, (∀ b ∈ l, qualityGE a b) →
      List.orderedInsert qualityGE a l = a :: l := by
  intro l h
  cases l with
  | nil => rfl
  | cons b t =>
    simp only [List.orderedInsert]
    rw [if_pos (h b (List.mem_cons_self b t))]

/-- Filtering commutes with ordered insertion into a sorted list. -/
theorem filter_orderedInsert (p : ScoredResult → Bool) (a : ScoredResult) :
    ∀ l : List ScoredResult, List.Sorted qualityGE l →
      (List.orderedInsert qualityGE a l).filter p =
        if p a then List.orderedInsert qualityGE a (l.filter p)
        else l.filter p := by
  intro l
  induction l with
  | nil =>
    intro _
    by_cases hpa : p a <;> simp [List.orderedInsert, List.filter_cons, hpa]
  | cons b t ih =>
    intro hs
    have hb : ∀ x ∈ t, qualityGE b x := (List.sorted_cons.mp hs).1
    have ht : List.Sorted qualityGE t := (List.sorted_cons.mp hs).2
    by_cases hab : qualityGE a b
    · simp only [List.orderedInsert, if_pos hab]
      by_cases hpa : p a
      · rw [List.filter_cons_of_pos (by simp [hpa]), if_pos hpa]
        have hall : ∀ x ∈ (b :: t).filter p, qualityGE a x := by
          intro x hx
          have hx' : x ∈ b :: t := List.mem_of_mem_filter hx
          rcases List.mem_cons.mp hx' with hxb | hxt
          · subst hxb; exact hab
          · exact le_trans (hb x hxt) hab
        rw [orderedInsert_of_forall_rel hall]
      · rw [List.filter_cons_of_neg (by simp [hpa]), if_neg hpa]
    · simp only [List.orderedInsert, if_neg hab]
      by_cases hpa : p a <;> by_cases hpb : p b <;>
        simp [List.filter_cons, hpa, hpb, ih ht, List.orderedInsert, hab]

/-- Filtering commutes with the stable insertion sort: sorting first and then
filtering equals filtering first and then sorting. -/
theorem filter_insertionSort (p : ScoredResult → Bool) :
    ∀ l : List ScoredResult,
      (List.insertionSort qualityGE l).filter p =
        List.insertionSort qualityGE (l.filter p) := by
  intro l
  induction l with
  | nil => rfl
  | cons a l ih =>
    have hsorted := List.sorted_insertionSort qualityGE l
    by_cases hpa : p a <;>
      simp [List.insertionSort, List.filter_cons, hpa,
        filter_orderedInsert p a _ hsorted, ih]

/-- The category/budget filter commutes with the stable sort. -/
theorem filter_results_insertionSort (l : List ScoredResult)
    (cat : Option String) (bmin bmax : Option ℚ) :
    filter_results (List.insertionSort qualityGE l) cat bmin bmax =
      List.insertionSort qualityGE (filter_results l cat bmin bmax) := by
  cases cat with
  | none =>
    cases bmin <;> cases bmax <;>
      simp [filter_results, filter_insertionSort]
  | some c =>
    by_cases hc : c = "" <;> cases bmin <;> cases bmax <;>
      simp [filter_results, hc, filter_insertionSort]

/-- The category/budget filter only removes elements. -/
theorem filter_results_subset (l : List ScoredResult)
    (cat : Option String) (bmin bmax : Option ℚ) :
    ∀ r ∈ filter_results l cat bmin bmax, r ∈ l := by
  intro r hr
  unfold filter_results at hr
  cases cat with
  | none =>
    cases bmin <;> cases bmax <;>
      simp only [] at hr <;>
      repeat first
        | exact hr
        | exact List.mem_of_mem_filter hr
        | replace hr := List.mem_of_mem_filter hr
  | some c =>
    by_cases hc : c = "" <;>
      simp only [hc, if_pos, if_neg, if_true, if_false] at hr <;>
      cases bmin <;> cases bmax <;>
      simp only [] at hr <;>
      repeat first
        | exact hr
        | exact List.mem_of_mem_filter hr
        | replace hr := List.mem_of_mem_filter hr

/-- C1: the candidates selected for persistence equal the quality-filtered,
category/budget-filtered candidates ranked by descending quality score with
original-order tie-breaking and truncated to `limit` — although the code
sorts before the category/budget filter, that order coincides with the
spec's filter-then-rank order; the selection is sorted, at most `limit`
long, and contains only candidates at or above the threshold. -/
theorem smart_search_selection_spec (scored : List ScoredResult)
    (minq : ℤ) (cat : Option String) (bmin bmax : Option ℚ) (limit : ℕ) :
    smart_search_selection scored minq cat bmin bmax limit
      = spec_order_selection scored minq cat bmin bmax limit
    ∧ List.Sorted qualityGE (smart_search_selection scored minq cat bmin bmax limit)
    ∧ (smart_search_selection scored minq cat bmin bmax limit).length ≤ limit
    ∧ ∀ r ∈ smart_search_selection scored minq cat bmin bmax limit,
        minq ≤ r.quality_score := by
  have he : smart_search_selection scored minq cat bmin bmax limit
      = spec_order_selection scored minq cat bmin bmax limit := by
    unfold smart_search_selection spec_order_selection
    simp only [filter_results_insertionSort]
  refine ⟨he, ?_, ?_, ?_⟩
  · rw [he]
    unfold spec_order_selection
    exact List.Pairwise.sublist (List.take_sublist _ _)
      (List.sorted_insertionSort qualityGE _)
  · unfold smart_search_selection
    exact List.length_take_le _ _
  · intro r hr
    unfold smart_search_selection at hr
    have h1 := List.take_subset _ _ hr
    have h2 := filter_results_subset _ cat bmin bmax r h1
    have h3 : r ∈ scored.filter (fun r => decide (minq ≤ r.quality_score)) :=
      (List.perm_insertionSort qualityGE _).subset h2
    have := (List.mem_filter.mp h3).2
    simpa using this

/-- Witness for C1 on a concrete scored list: the code order and the spec
order agree. -/
theorem smart_search_selection_spec_witness :
    smart_search_selection
        [{ cand := baseCand "A", quality_score := 72 },
         { cand := baseCand "B", quality_score := 61 },
         { cand := baseCand "C", quality_score := 55 },
         { cand := baseCand "D", quality_score := 72 }]
        60 Option.none Option.none Option.none 2
      = spec_order_selection
        [{ cand := baseCand "A", quality_score := 72 },
         { cand := baseCand "B", quality_score := 61 },
         { cand := baseCand "C", quality_score := 55 },
         { cand := baseCand "D", quality_score := 72 }]
        60 Option.none Option.none Option.none 2 :=
  (smart_search_selection_spec _ 60 Option.none Option.none Option.none 2).1

/-- Updating `search_query`/`updated_at` does not change the dedup key. -/
theorem recKey_updateExisting (row : RecRow) (q : String) (now : ℕ) :
    recKey (updateExisting row q now) = recKey row := rfl

/-- The lookup condition of `_save_recommendations` is key equality. -/
theorem saveMatch_iff_recKey (row : RecRow) (tid : ℕ) (nm : String)
    (addr : Option String) :
    (row.trip_id = tid ∧ row.name = nm ∧ row.address = addr)
      ↔ recKey row = (tid, nm, addr) := by
  unfold recKey
  constructor
  · rintro ⟨h1, h2, h3⟩
    rw [h1, h2, h3]
  · intro h
    injection h with h1 h23
    injection h23 with h2 h3
    exact ⟨h1, h2, h3⟩

/-- A hit of the `.first()` lookup keeps the key list and the length of the
committed table. -/
theorem updateFirstMatch_some_keys (tid : ℕ) (nm : String)
    (addr : Option String) (q : String) (now : ℕ) :
    ∀ c c' : List RecRow, updateFirstMatch tid nm addr q now c = some c' →
      c'.map recKey = c.map recKey ∧ c'.length = c.length := by
  intro c
  induction c with
  | nil => intro c' h; simp [updateFirstMatch] at h
  | cons row rest ih =>
    intro c' h
    unfold updateFirstMatch at h
    by_cases hrow : row.trip_id = tid ∧ row.name = nm ∧ row.address = addr
    · rw [if_pos hrow, Option.some_inj] at h
      subst h
      simp [recKey_updateExisting]
    · rw [if_neg hrow] at h
      rcases Option.map_eq_some'.mp h with ⟨rest', hrest, hcons⟩
      subst hcons
      rcases ih rest' hrest with ⟨hk, hl⟩
      simp [hk, hl]

/-- The `.first()` lookup misses exactly when no committed row has the key. -/
theorem updateFirstMatch_none_iff (tid : ℕ) (nm : String)
    (addr : Option String) (q : String) (now : ℕ) :
    ∀ c : List RecRow, updateFirstMatch tid nm addr q now c = Option.none
      ↔ (tid, nm, addr) ∉ c.map recKey := by
  intro c
  induction c with
  | nil => simp [updateFirstMatch]
  | cons row rest ih =>
    unfold updateFirstMatch
    by_cases hrow : row.trip_id = tid ∧ row.name = nm ∧ row.address = addr
    · rw [if_pos hrow]
      have hk : recKey row = (tid, nm, addr) :=
        (saveMatch_iff_recKey row tid nm addr).mp hrow
      simp [hk]
    · rw [if_neg hrow, Option.map_eq_none', ih]
      have hk : recKey row ≠ (tid, nm, addr) := fun hc =>
        hrow ((saveMatch_iff_recKey row tid nm addr).mpr hc)
      simp only [List.map_cons, List.mem_cons, not_or]
      constructor
      · intro h
        exact ⟨fun hc => hk hc.symm, h⟩
      · intro h
        exact h.2

/-- Running the save loop preserves the committed keys and length, appends
pending rows whose keys are fresh and drawn from the results, and ends with
every result's key present in the committed or pending table. -/
theorem saveLoop_facts (tid : ℕ) (q : String) (now : ℕ) :
    ∀ (results : List ScoredResult) (c p out1 out2 : List RecRow),
      saveLoop tid q now results (c, p) = Except.ok (out1, out2) →
      out1.map recKey = c.map recKey
      ∧ out1.length = c.length
      ∧ (∃ newKeys : List (ℕ × String × Option String),
          out2.map recKey = p.map recKey ++ newKeys
          ∧ newKeys.Sublist
              (results.map (fun r => (tid, r.cand.name, r.cand.address)))
          ∧ ∀ k ∈ newKeys, k ∉ c.map recKey)
      ∧ ∀ r ∈ results, (tid, r.cand.name, r.cand.address) ∈ c.map recKey
          ∨ (tid, r.cand.name, r.cand.address) ∈ out2.map recKey := by
  intro results
  induction results with
  | nil =>
    intro c p out1 out2 h
    unfold saveLoop at h
    injection h with h
    injection h with h1 h2
    subst h1
    subst h2
    exact ⟨rfl, rfl, ⟨[], by simp, List.nil_sublist _, by simp⟩, by simp⟩
  | cons r rest ih =>
    intro c p out1 out2 h
    rw [saveLoop] at h
    cases hu : updateFirstMatch tid r.cand.name r.cand.address q now c with
    | some c1 =>
      have hstep : saveStep tid q now (c, p) r = Except.ok (c1, p) := by
        unfold saveStep
        rw [hu]
      rw [hstep] at h
      have h' : saveLoop tid q now rest (c1, p) = Except.ok (out1, out2) := h
      rcases ih c1 p out1 out2 h'
        with ⟨hk1, hl1, ⟨nk, hnk1, hnk2, hnk3⟩, hmem⟩
      rcases updateFirstMatch_some_keys tid r.cand.name r.cand.address q now
        c c1 hu with ⟨hck, hcl⟩
      have hrk : (tid, r.cand.name, r.cand.address) ∈ c.map recKey := by
        by_contra hnein
        rw [← updateFirstMatch_none_iff tid r.cand.name r.cand.address q now c]
          at hnein
        rw [hnein] at hu
        exact Option.noConfusion hu
      refine ⟨hk1.trans hck, hl1.trans hcl,
        ⟨nk, hnk1, hnk2.trans (by
          simp only [List.map_cons]
          exact List.sublist_cons_self _ _),
         fun k hk => hck ▸ hnk3 k hk⟩, ?_⟩
      intro r' hr'
      rcases List.mem_cons.mp hr' with h1 | h1
      · subst h1
        exact Or.inl hrk
      · rcases hmem r' h1 with h2 | h2
        · left
          rw [← hck]
          exact h2
        · exact Or.inr h2
    | none =>
      cases hcat : categoryOf r.cand with
      | error e =>
        have hstep : saveStep tid q now (c, p) r = Except.error e := by
          unfold saveStep
          rw [hu, hcat]
        rw [hstep] at h
        exact Except.noConfusion h
      | ok cat =>
        have hstep : saveStep tid q now (c, p) r
            = Except.ok (c, p ++ [newRecRow tid q now r cat]) := by
          unfold saveStep
          rw [hu, hcat]
        rw [hstep] at h
        have h' : saveLoop tid q now rest (c, p ++ [newRecRow tid q now r cat])
            = Except.ok (out1, out2) := h
        rcases ih c (p ++ [newRecRow tid q now r cat]) out1 out2 h'
          with ⟨hk1, hl1, ⟨nk, hnk1, hnk2, hnk3⟩, hmem⟩
        have hknew : recKey (newRecRow tid q now r cat)
            = (tid, r.cand.name, r.cand.address) := rfl
        have hnotin : (tid, r.cand.name, r.cand.address) ∉ c.map recKey :=
          (updateFirstMatch_none_iff tid r.cand.name r.cand.address q now c).mp hu
        refine ⟨hk1, hl1,
          ⟨(tid, r.cand.name, r.cand.address) :: nk, ?_, ?_, ?_⟩, ?_⟩
        · rw [hnk1, List.map_append]
          simp [hknew, List.append_assoc]
        · simp only [List.map_cons]
          exact List.Sublist.cons₂ _ hnk2
        · intro k hk
          rcases List.mem_cons.mp hk with h1 | h1
          · subst h1
            exact hnotin
          · exact hnk3 k h1
        · intro r' hr'
          rcases List.mem_cons.mp hr' with h1 | h1
          · subst h1
            right
            rw [hnk1]
            refine List.mem_append_left _ ?_
            rw [List.map_append]
            refine List.mem_append_right _ ?_
            simp [hknew]
          · exact hmem r' h1

/-- When every result's key is already committed, the save loop only takes
update paths: it succeeds, adds no pending row and keeps length and keys. -/
theorem saveLoop_all_found (tid : ℕ) (q : String) (now : ℕ) :
    ∀ (results : List ScoredResult) (c p : List RecRow),
      (∀ r ∈ results, (tid, r.cand.name, r.cand.address) ∈ c.map recKey) →
      ∃ out1, saveLoop tid q now results (c, p) = Except.ok (out1, p)
        ∧ out1.length = c.length ∧ out1.map recKey = c.map recKey := by
  intro results
  induction results with
  | nil =>
    intro c p _
    exact ⟨c, rfl, rfl, rfl⟩
  | cons r rest ih =>
    intro c p hall
    have hr := hall r (List.mem_cons_self r rest)
    have hne : updateFirstMatch tid r.cand.name r.cand.address q now c
        ≠ Option.none := by
      intro h0
      exact (updateFirstMatch_none_iff tid r.cand.name r.cand.address
        q now c).mp h0 hr
    rcases Option.ne_none_iff_exists'.mp hne with ⟨c1, hu⟩
    rcases updateFirstMatch_some_keys tid r.cand.name r.cand.address q now
      c c1 hu with ⟨hck, hcl⟩
    have hall1 : ∀ x ∈ rest, (tid, x.cand.name, x.cand.address)
        ∈ c1.map recKey := by
      intro x hx
      rw [hck]
      exact hall x (List.mem_cons_of_mem r hx)
    rcases ih c1 p hall1 with ⟨out1, hloop, hl, hk⟩
    refine ⟨out1, ?_, hl.trans hcl, hk.trans hck⟩
    rw [saveLoop]
    have hstep : saveStep tid q now (c, p) r = Except.ok (c1, p) := by
      unfold saveStep
      rw [hu]
    rw [hstep]
    exact hloop

/-- Applying the re-discovery update twice is the same as applying it once. -/
theorem updateExisting_idem (row : RecRow) (q : String) (now : ℕ) :
    updateExisting (updateExisting row q now) q now
      = updateExisting row q now := rfl

/-- A hit of the `.first()` lookup changes each position to either itself or
its updated form. -/
theorem updateFirstMatch_frame (tid : ℕ) (nm : String) (addr : Option String)
    (q : String) (now : ℕ) :
    ∀ t d : List RecRow, updateFirstMatch tid nm addr q now t = some d →
      ∀ i : ℕ, d[i]? = t[i]?
        ∨ d[i]? = t[i]?.map (fun row => updateExisting row q now) := by
  intro t
  induction t with
  | nil => intro d h; simp [updateFirstMatch] at h
  | cons row rest ih =>
    intro d h i
    unfold updateFirstMatch at h
    by_cases hrow : row.trip_id = tid ∧ row.name = nm ∧ row.address = addr
    · rw [if_pos hrow, Option.some_inj] at h
      subst h
      cases i with
      | zero => right; simp
      | succ j => left; simp
    · rw [if_neg hrow] at h
      rcases Option.map_eq_some'.mp h with ⟨rest2, hrest, hcons⟩
      subst hcons
      cases i with
      | zero => left; simp
      | succ j =>
        simp only [List.getElem?_cons_succ]
        exact ih rest2 hrest j

/-- Position-wise updates compose: two passes of "unchanged or updated" give
"unchanged or updated". -/
theorem frame_step_trans (q : String) (now : ℕ) (x y z : List RecRow)
    (h1 : ∀ i : ℕ, y[i]? = x[i]?
        ∨ y[i]? = x[i]?.map (fun row => updateExisting row q now))
    (h2 : ∀ i : ℕ, z[i]? = y[i]?
        ∨ z[i]? = y[i]?.map (fun row => updateExisting row q now)) :
    ∀ i : ℕ, z[i]? = x[i]?
      ∨ z[i]? = x[i]?.map (fun row => updateExisting row q now) := by
  intro i
  rcases h2 i with h | h <;> rcases h1 i with h' | h'
  · left; rw [h, h']
  · right; rw [h, h']
  · right; rw [h, h']
  · right
    rw [h, h']
    cases ha : x[i]? with
    | none => rfl
    | some row => rfl

/-- Every committed position survives the save loop either unchanged or with
only its `search_query`/`updated_at` reassigned. -/
theorem saveLoop_frame (tid : ℕ) (q : String) (now : ℕ) :
    ∀ (results : List ScoredResult) (t p out1 out2 : List RecRow),
      saveLoop tid q now results (t, p) = Except.ok (out1, out2) →
      ∀ i : ℕ, out1[i]? = t[i]?
        ∨ out1[i]? = t[i]?.map (fun row => updateExisting row q now) := by
  intro results
  induction results with
  | nil =>
    intro t p out1 out2 h i
    unfold saveLoop at h
    injection h with h
    injection h with h1 h2
    subst h1
    exact Or.inl rfl
  | cons r rest ih =>
    intro t p out1 out2 h i
    rw [saveLoop] at h
    cases hu : updateFirstMatch tid r.cand.name r.cand.address q now t with
    | some t1 =>
      have hstep : saveStep tid q now (t, p) r = Except.ok (t1, p) := by
        unfold saveStep
        rw [hu]
      rw [hstep] at h
      have h' : saveLoop tid q now rest (t1, p) = Except.ok (out1, out2) := h
      exact frame_step_trans q now t t1 out1
        (updateFirstMatch_frame tid r.cand.name r.cand.address q now t t1 hu)
        (ih t1 p out1 out2 h') i
    | none =>
      cases hcat : categoryOf r.cand with
      | error e =>
        have hstep : saveStep tid q now (t, p) r = Except.error e := by
          unfold saveStep
          rw [hu, hcat]
        rw [hstep] at h
        exact Except.noConfusion h
      | ok cat =>
        have hstep : saveStep tid q now (t, p) r
            = Except.ok (t, p ++ [newRecRow tid q now r cat]) := by
          unfold saveStep
          rw [hu, hcat]
        rw [hstep] at h
        have h' : saveLoop tid q now rest (t, p ++ [newRecRow tid q now r cat])
            = Except.ok (out1, out2) := h
        exact ih t _ out1 out2 h' i

/-- C4 (amended): provided one invocation's surviving candidates have
pairwise-distinct (name, address) pairs, `_save_recommendations` keeps at
most one stored row per (trip_id, name, address) triple, its growth is
bounded by the number of distinct (name, address) pairs, and repeating the
same save succeeds and does not grow the table at all. -/
theorem save_recommendations_dedup (tid : ℕ) (q q2 : String) (now now2 : ℕ)
    (committed db1 : List RecRow) (results : List ScoredResult)
    (hnd : (results.map (fun r => (r.cand.name, r.cand.address))).Nodup)
    (hc : (committed.map recKey).Nodup)
    (h1 : save_recommendations tid q now committed results = Except.ok db1) :
    (db1.map recKey).Nodup
    ∧ db1.length ≤ committed.length
        + (results.map (fun r => (r.cand.name, r.cand.address))).dedup.length
    ∧ ∃ db2, save_recommendations tid q2 now2 db1 results = Except.ok db2
        ∧ db2.length = db1.length := by
  unfold save_recommendations at h1
  cases hloop : saveLoop tid q now results (committed, []) with
  | error e =>
    rw [hloop] at h1
    exact Except.noConfusion h1
  | ok st =>
    obtain ⟨out1, out2⟩ := st
    rw [hloop] at h1
    injection h1 with h1
    replace h1 : out1 ++ out2 = db1 := h1
    subst h1
    rcases saveLoop_facts tid q now results committed [] out1 out2 hloop
      with ⟨hk1, hl1, ⟨nk, hnk1, hnk2, hnk3⟩, hmem⟩
    rw [List.map_nil, List.nil_append] at hnk1
    have htrip : (results.map
        (fun r => (tid, r.cand.name, r.cand.address))).Nodup := by
      have hrwr : results.map (fun r => (tid, r.cand.name, r.cand.address))
          = (results.map (fun r => (r.cand.name, r.cand.address))).map
              (fun pr => (tid, pr.1, pr.2)) := by
        rw [List.map_map]
        rfl
      rw [hrwr]
      refine List.Nodup.map ?_ hnd
      intro a b hab
      have hab1 : a.1 = b.1 := congrArg (fun x => x.2.1) hab
      have hab2 : a.2 = b.2 := congrArg (fun x => x.2.2) hab
      exact Prod.ext_iff.mpr ⟨hab1, hab2⟩
    have hkeys : (out1 ++ out2).map recKey
        = committed.map recKey ++ nk := by
      rw [List.map_append, hk1, hnk1]
    refine ⟨?_, ?_, ?_⟩
    · rw [hkeys, List.nodup_append]
      refine ⟨hc, List.Nodup.sublist hnk2 htrip, ?_⟩
      intro a ha hank
      exact hnk3 a hank ha
    · have hlen2 : out2.length = nk.length := by
        rw [← List.length_map out2 recKey, hnk1]
      have hnklen : nk.length ≤ results.length := by
        have := List.Sublist.length_le hnk2
        rwa [List.length_map] at this
      rw [List.dedup_eq_self.mpr hnd, List.length_map, List.length_append]
      omega
    · have hall : ∀ r ∈ results,
          (tid, r.cand.name, r.cand.address) ∈ (out1 ++ out2).map recKey := by
        intro r hr
        rw [List.map_append]
        rcases hmem r hr with h | h
        · rw [← hk1] at h
          exact List.mem_append_left _ h
        · exact List.mem_append_right _ h
      rcases saveLoop_all_found tid q2 now2 results (out1 ++ out2) [] hall
        with ⟨outA, hloop2, hlA, hkA⟩
      refine ⟨outA ++ [], ?_, ?_⟩
      · unfold save_recommendations
        rw [hloop2]
      · rw [List.append_nil]
        exact hlA

/-- C4 counterexample: saving a results list that repeats one (name, address)
pair into an empty table inserts two rows with the same
(trip_id, name, address) triple, because with `autoflush=False` the second
lookup cannot see the first, still pending, insert. -/
theorem save_recommendations_duplicate_counterexample :
    save_recommendations 7 "castle" 3 [] [dupScoredC4, dupScoredC4]
        = Except.ok dupSavedC4
    ∧ dupSavedC4.length = 2
    ∧ (dupSavedC4.map recKey).dedup.length = 1
    ∧ (dupSavedC4.map (fun row => (row.name, row.address))).dedup.length = 1 := by
  refine ⟨by decide, by decide, by decide, by decide⟩

/-- Witness for C4 at a singleton result list saved into an empty table. -/
theorem save_recommendations_dedup_witness :
    (freshSavedC4.map recKey).Nodup :=
  (save_recommendations_dedup 7 "food" "food" 3 4 [] freshSavedC4
    [freshScoredC4] (by decide) (by decide) (by decide)).1

/-- C10: when `_save_recommendations` re-discovers an existing row, every
pre-existing position of the table is either untouched or gets exactly the
`search_query`/`updated_at` reassignment; in particular `quality_score`,
`external_rating`, `external_review_count`, `estimated_cost`, `description`
and the translated fields keep their previous values. -/
theorem save_recommendations_update_frame (tid : ℕ) (q : String) (now : ℕ)
    (committed db1 : List RecRow) (results : List ScoredResult)
    (h1 : save_recommendations tid q now committed results = Except.ok db1) :
    committed.length ≤ db1.length
    ∧ ∀ i : ℕ, i < committed.length →
        (db1[i]? = committed[i]?
          ∨ db1[i]? = committed[i]?.map (fun row => updateExisting row q now))
        ∧ ∀ row rowA, committed[i]? = some row → db1[i]? = some rowA →
            rowA.quality_score = row.quality_score
            ∧ rowA.external_rating = row.external_rating
            ∧ rowA.external_review_count = row.external_review_count
            ∧ rowA.estimated_cost = row.estimated_cost
            ∧ rowA.description = row.description
            ∧ rowA.description_zh = row.description_zh
            ∧ rowA.cultural_notes_zh = row.cultural_notes_zh
            ∧ rowA.tips_for_chinese_travelers = row.tips_for_chinese_travelers
            ∧ recKey rowA = recKey row := by
  unfold save_recommendations at h1
  cases hloop : saveLoop tid q now results (committed, []) with
  | error e =>
    rw [hloop] at h1
    exact Except.noConfusion h1
  | ok st =>
    obtain ⟨out1, out2⟩ := st
    rw [hloop] at h1
    injection h1 with h1
    replace h1 : out1 ++ out2 = db1 := h1
    subst h1
    rcases saveLoop_facts tid q now results committed [] out1 out2 hloop
      with ⟨hk1, hl1, _, _⟩
    have hframe := saveLoop_frame tid q now results committed [] out1 out2 hloop
    have hlen : committed.length ≤ (out1 ++ out2).length := by
      rw [List.length_append]
      omega
    refine ⟨hlen, fun i hi => ?_⟩
    have hiout : i < out1.length := by omega
    have happ : (out1 ++ out2)[i]? = out1[i]? :=
      List.getElem?_append_left hiout
    have hdisj : (out1 ++ out2)[i]? = committed[i]?
        ∨ (out1 ++ out2)[i]?
          = committed[i]?.map (fun row => updateExisting row q now) := by
      rw [happ]
      exact hframe i
    refine ⟨hdisj, fun row rowA hrow hrowA => ?_⟩
    rcases hdisj with h | h
    · rw [hrowA, hrow, Option.some_inj] at h
      subst h
      exact ⟨rfl, rfl, rfl, rfl, rfl, rfl, rfl, rfl, rfl⟩
    · rw [hrowA, hrow, Option.map_some'] at h
      injection h with h
      subst h
      exact ⟨rfl, rfl, rfl, rfl, rfl, rfl, rfl, rfl, rfl⟩

/-- Witness for C10: a re-discovered row keeps its stored quality score (70)
even though the new search scored the candidate 95. -/
theorem save_recommendations_update_frame_witness :
    (updateExisting storedRowC10 "new query" 5).quality_score
      = storedRowC10.quality_score :=
  (((save_recommendations_update_frame 9 "new query" 5 [storedRowC10]
      [updateExisting storedRowC10 "new query" 5] [rediscoveredC10]
      (by decide)).2 0 (by decide)).2 storedRowC10
      (updateExisting storedRowC10 "new query" 5) rfl rfl).1

/-- The normalized text is empty exactly when the stripped text is. -/
theorem pyNormalize_eq_empty_iff (t : String) :
    pyNormalize t = "" ↔ pyStrip t = "" := by
  unfold pyNormalize pyLower
  constructor
  · intro h
    have hd : ((pyStrip t).data.map Char.toLower) = [] := congrArg String.data h
    exact String.ext (List.map_eq_nil_iff.mp hd)
  · intro h
    rw [h]
    rfl

/-- A cache miss means no row matches the key. -/
theorem cacheLookupUpdate_fst_none_iff (h sl tl : String) (now : ℕ) :
    ∀ db : List TranslationCacheEntry,
      (cacheLookupUpdate h sl tl now db).1 = Option.none
        ↔ ∀ e ∈ db, ¬cacheKeyMatches e h sl tl := by
  intro db
  induction db with
  | nil => simp [cacheLookupUpdate]
  | cons e rest ih =>
    by_cases he : cacheKeyMatches e h sl tl
    · simp [cacheLookupUpdate, he]
    · simp [cacheLookupUpdate, he, ih]

/-- A cache miss leaves the table unchanged. -/
theorem cacheLookupUpdate_fst_none_snd (h sl tl : String) (now : ℕ) :
    ∀ db : List TranslationCacheEntry,
      (cacheLookupUpdate h sl tl now db).1 = Option.none →
      (cacheLookupUpdate h sl tl now db).2 = db := by
  intro db
  induction db with
  | nil => intro _; rfl
  | cons e rest ih =>
    intro hnone
    by_cases he : cacheKeyMatches e h sl tl
    · simp [cacheLookupUpdate, he] at hnone
    · simp only [cacheLookupUpdate, if_neg he] at hnone ⊢
      rw [ih hnone]

/-- The lookup skips a prefix of non-matching rows. -/
theorem cacheLookupUpdate_append_of_miss (h sl tl : String) (now : ℕ) :
    ∀ (db l2 : List TranslationCacheEntry),
      (∀ e ∈ db, ¬cacheKeyMatches e h sl tl) →
      cacheLookupUpdate h sl tl now (db ++ l2)
        = ((cacheLookupUpdate h sl tl now l2).1,
           db ++ (cacheLookupUpdate h sl tl now l2).2) := by
  intro db
  induction db with
  | nil => intro l2 _; simp
  | cons e rest ih =>
    intro l2 hmiss
    have he : ¬cacheKeyMatches e h sl tl := hmiss e (List.mem_cons_self e rest)
    have hrest : ∀ x ∈ rest, ¬cacheKeyMatches x h sl tl :=
      fun x hx => hmiss x (List.mem_cons_of_mem e hx)
    simp only [List.cons_append, cacheLookupUpdate, if_neg he, List.append_eq,
      ih l2 hrest]

/-- Upserting a fresh key appends a new row. -/
theorem cacheUpsert_of_miss (h sl tl t tr : String) (svc mdl : Option String)
    (now : ℕ) :
    ∀ db : List TranslationCacheEntry,
      (∀ e ∈ db, ¬cacheKeyMatches e h sl tl) →
      cacheUpsert h sl tl t tr svc mdl now db
        = db ++ [mkNewCacheEntry h sl tl t tr svc mdl now] := by
  intro db
  induction db with
  | nil => intro _; rfl
  | cons e rest ih =>
    intro hmiss
    have he : ¬cacheKeyMatches e h sl tl := hmiss e (List.mem_cons_self e rest)
    have hrest : ∀ x ∈ rest, ¬cacheKeyMatches x h sl tl :=
      fun x hx => hmiss x (List.mem_cons_of_mem e hx)
    simp only [cacheUpsert, if_neg he, ih hrest, List.cons_append]

/-- C5 (amended): for source texts that are non-blank after trimming, two
translation requests with equal normalized texts and the same language pair,
where the first misses the cache and succeeds remotely, make exactly one
remote call in total: the first call caches its result under the normalized
content hash, the second finds that row, increments its `usage_count`,
refreshes `last_used_at` and returns the cached text with zero remote calls. -/
theorem translation_cache_hit (remote : String → Option String)
    (db : List TranslationCacheEntry) (t1 t2 sl tl tr : String)
    (now1 now2 : ℕ)
    (hblank : pyStrip t1 ≠ "")
    (hnorm : pyNormalize t1 = pyNormalize t2)
    (hmiss : (get_cached_translation db now1 t1 sl tl).1 = Option.none)
    (hremote : remote t1 = some tr)
    (htr : tr ≠ "") :
    (mkNewCacheEntry (pyNormalize t1) sl tl t1 tr (some "openai")
        (some "gpt-4") now1).usage_count = 1
    ∧ translateFieldWithCache remote now1 db t1 sl tl
        = Except.ok (some tr,
            db ++ [mkNewCacheEntry (pyNormalize t1) sl tl t1 tr
              (some "openai") (some "gpt-4") now1], 1)
    ∧ translateFieldWithCache remote now2
        (db ++ [mkNewCacheEntry (pyNormalize t1) sl tl t1 tr
          (some "openai") (some "gpt-4") now1]) t2 sl tl
        = Except.ok (some tr,
            db ++ [{ mkNewCacheEntry (pyNormalize t1) sl tl t1 tr
                (some "openai") (some "gpt-4") now1 with
              usage_count := (mkNewCacheEntry (pyNormalize t1) sl tl t1 tr
                (some "openai") (some "gpt-4") now1).usage_count + 1,
              last_used_at := now2 }], 0) := by
  have ht1ne : t1 ≠ "" := fun h => hblank (by rw [h]; rfl)
  have hhash1 : generate_content_hash t1 = pyNormalize t1 := by
    unfold generate_content_hash
    rw [if_neg ht1ne]
  have hguard1 : ¬(t1 = "" ∨ pyStrip t1 = "") := by
    intro h
    rcases h with h | h
    · exact ht1ne h
    · exact hblank h
  have hmiss2 : (cacheLookupUpdate (pyNormalize t1) sl tl now1 db).1
      = Option.none := by
    unfold get_cached_translation at hmiss
    rw [if_neg hguard1] at hmiss
    rwa [hhash1] at hmiss
  have hnomatch : ∀ e ∈ db, ¬cacheKeyMatches e (pyNormalize t1) sl tl :=
    (cacheLookupUpdate_fst_none_iff (pyNormalize t1) sl tl now1 db).mp hmiss2
  have hgc1 : get_cached_translation db now1 t1 sl tl = (Option.none, db) := by
    unfold get_cached_translation
    rw [if_neg hguard1, hhash1]
    exact Prod.ext_iff.mpr
      ⟨hmiss2, cacheLookupUpdate_fst_none_snd (pyNormalize t1) sl tl now1 db hmiss2⟩
  have hneor : ¬(t1 = "" ∨ tr = "") := by
    intro h
    rcases h with h | h
    · exact ht1ne h
    · exact htr h
  have hcall1 : translateFieldWithCache remote now1 db t1 sl tl
      = Except.ok (some tr,
          db ++ [mkNewCacheEntry (pyNormalize t1) sl tl t1 tr
            (some "openai") (some "gpt-4") now1], 1) := by
    unfold translateFieldWithCache
    simp only [hgc1, hremote]
    rw [if_neg htr]
    simp only [cache_translation, if_neg hneor]
    rw [hhash1, cacheUpsert_of_miss (pyNormalize t1) sl tl t1 tr
      (some "openai") (some "gpt-4") now1 db hnomatch]
  have hnorm1ne : pyNormalize t1 ≠ "" := by
    intro h
    exact hblank ((pyNormalize_eq_empty_iff t1).mp h)
  have hstrip2 : pyStrip t2 ≠ "" := by
    intro h
    exact hnorm1ne (hnorm.trans ((pyNormalize_eq_empty_iff t2).mpr h))
  have ht2ne : t2 ≠ "" := fun h => hstrip2 (by rw [h]; rfl)
  have hguard2 : ¬(t2 = "" ∨ pyStrip t2 = "") := by
    intro h
    rcases h with h | h
    · exact ht2ne h
    · exact hstrip2 h
  have hhash2 : generate_content_hash t2 = pyNormalize t1 := by
    unfold generate_content_hash
    rw [if_neg ht2ne, ← hnorm]
  have hematch : cacheKeyMatches
      (mkNewCacheEntry (pyNormalize t1) sl tl t1 tr (some "openai")
        (some "gpt-4") now1) (pyNormalize t1) sl tl := ⟨rfl, rfl, rfl⟩
  have hsingle : cacheLookupUpdate (pyNormalize t1) sl tl now2
      [mkNewCacheEntry (pyNormalize t1) sl tl t1 tr (some "openai")
        (some "gpt-4") now1]
      = (some tr,
         [{ mkNewCacheEntry (pyNormalize t1) sl tl t1 tr (some "openai")
              (some "gpt-4") now1 with
            usage_count := (mkNewCacheEntry (pyNormalize t1) sl tl t1 tr
              (some "openai") (some "gpt-4") now1).usage_count + 1,
            last_used_at := now2 }]) := by
    unfold cacheLookupUpdate
    rw [if_pos hematch]
    rfl
  have hgc2 : get_cached_translation
      (db ++ [mkNewCacheEntry (pyNormalize t1) sl tl t1 tr (some "openai")
        (some "gpt-4") now1]) now2 t2 sl tl
      = (some tr,
         db ++ [{ mkNewCacheEntry (pyNormalize t1) sl tl t1 tr (some "openai")
              (some "gpt-4") now1 with
            usage_count := (mkNewCacheEntry (pyNormalize t1) sl tl t1 tr
              (some "openai") (some "gpt-4") now1).usage_count + 1,
            last_used_at := now2 }]) := by
    unfold get_cached_translation
    rw [if_neg hguard2, hhash2,
      cacheLookupUpdate_append_of_miss (pyNormalize t1) sl tl now2 db _ hnomatch,
      hsingle]
  refine ⟨rfl, hcall1, ?_⟩
  unfold translateFieldWithCache
  simp only [hgc2]

/-- Witness for C5 with texts "Hello" and " hello " that normalize equally. -/
theorem translation_cache_hit_witness :
    (mkNewCacheEntry (pyNormalize "Hello") "en" "zh" "Hello" "NIHAO"
        (some "openai") (some "gpt-4") 0).usage_count = 1 :=
  (translation_cache_hit (fun _ => some "NIHAO") [] "Hello" " hello " "en" "zh"
    "NIHAO" 0 1 (by decide) (by decide) (by decide) rfl (by decide)).1

/-- C5 counterexample: for the whitespace-only text `" "` (truthy in Python,
equal to itself after normalization), the first request succeeds and caches,
yet the second request still makes a remote call (count 1, not 0): the
blank-text guard of `get_cached_translation` skips the cache lookup. -/
theorem translation_cache_blank_counterexample :
    translateFieldWithCache constRemoteC5 0 [] " " "en" "zh"
        = Except.ok (some "T",
            [mkNewCacheEntry "" "en" "zh" " " "T" (some "openai")
              (some "gpt-4") 0], 1)
    ∧ (translateFieldWithCache constRemoteC5 1
        [mkNewCacheEntry "" "en" "zh" " " "T" (some "openai") (some "gpt-4") 0]
        " " "en" "zh").map (fun r => r.2.2)
        = Except.ok 1 := by
  refine ⟨by decide, by decide⟩

/-- `translate_activity_content` never changes the original fields of an
activity: only the four translated fields can differ. -/
theorem translate_activity_content_frame (O : TransOracles) (now : ℕ)
    (db : List TranslationCacheEntry) (a : TActivity) (sl tl : String) :
    (translate_activity_content O now db a sl tl).1.name = a.name
    ∧ (translate_activity_content O now db a sl tl).1.description
        = a.description
    ∧ (translate_activity_content O now db a sl tl).1.external_rating
        = a.external_rating
    ∧ (translate_activity_content O now db a sl tl).1.external_review_count
        = a.external_review_count
    ∧ (translate_activity_content O now db a sl tl).1.types = a.types
    ∧ (translate_activity_content O now db a sl tl).1.category = a.category := by
  unfold translate_activity_content
  repeat' split
  all_goals exact ⟨rfl, rfl, rfl, rfl, rfl, rfl⟩

/-- Itemwise translation preserves the length of the list. -/
theorem seqTranslate_length (O : TransOracles) (now : ℕ) (sl tl : String) :
    ∀ (acts : List TActivity) (db : List TranslationCacheEntry),
      ((seqTranslate O now sl tl db acts).1).length = acts.length := by
  intro acts
  induction acts with
  | nil => intro db; rfl
  | cons x rest ih =>
    intro db
    simp [seqTranslate, ih]

/-- The i-th output of itemwise translation is the translation of the i-th
input under some intermediate cache state. -/
theorem seqTranslate_get (O : TransOracles) (now : ℕ) (sl tl : String) :
    ∀ (acts : List TActivity) (db : List TranslationCacheEntry) (i : ℕ)
      (a : TActivity), acts[i]? = some a →
      ∃ d, ((seqTranslate O now sl tl db acts).1)[i]?
        = some ((translate_activity_content O now d a sl tl).1) := by
  intro acts
  induction acts with
  | nil => intro db i a h; simp at h
  | cons x rest ih =>
    intro db i a h
    cases i with
    | zero =>
      rw [List.getElem?_cons_zero, Option.some_inj] at h
      subst h
      exact ⟨db, by simp [seqTranslate]⟩
    | succ j =>
      rw [List.getElem?_cons_succ] at h
      obtain ⟨d, hd⟩ :=
        ih ((translate_activity_content O now db x sl tl).2.1) j a h
      exact ⟨d, by simp [seqTranslate, hd]⟩

/-- The gathered batch results are the itemwise results wrapped in
`Except.ok` (the tasks handle their own exceptions). -/
theorem gatherTranslate_eq (O : TransOracles) (now : ℕ) (sl tl : String) :
    ∀ (acts : List TActivity) (db : List TranslationCacheEntry),
      gatherTranslate O now sl tl db acts
        = ((seqTranslate O now sl tl db acts).1.map Except.ok,
           (seqTranslate O now sl tl db acts).2) := by
  intro acts
  induction acts with
  | nil => intro db; rfl
  | cons x rest ih =>
    intro db
    simp [gatherTranslate, seqTranslate, ih]

/-- Folding the append step over ok-results appends the values in order. -/
theorem foldl_appendBatchResult (batch : List TActivity) :
    ∀ (vs translated : List TActivity),
      (vs.map Except.ok).foldl
          (fun acc r => appendBatchResult acc batch r) translated
        = translated ++ vs := by
  intro vs
  induction vs with
  | nil => intro translated; simp
  | cons v rest ih =>
    intro translated
    rw [List.map_cons, List.foldl_cons]
    rw [show appendBatchResult translated batch (Except.ok v)
      = translated ++ [v] from rfl]
    rw [ih (translated ++ [v]), List.append_assoc]
    rfl

/-- Itemwise translation splits over list concatenation. -/
theorem seqTranslate_append (O : TransOracles) (now : ℕ) (sl tl : String) :
    ∀ (l1 l2 : List TActivity) (db : List TranslationCacheEntry),
      seqTranslate O now sl tl db (l1 ++ l2)
        = ((seqTranslate O now sl tl db l1).1
            ++ (seqTranslate O now sl tl
                ((seqTranslate O now sl tl db l1).2.1) l2).1,
           (seqTranslate O now sl tl
              ((seqTranslate O now sl tl db l1).2.1) l2).2.1,
           (seqTranslate O now sl tl db l1).2.2
             + (seqTranslate O now sl tl
                 ((seqTranslate O now sl tl db l1).2.1) l2).2.2) := by
  intro l1
  induction l1 with
  | nil => intro l2 db; simp [seqTranslate]
  | cons x rest ih =>
    intro l2 db
    simp [seqTranslate, ih, List.append_assoc, Nat.add_assoc]

/-- The chunked batch loop equals the itemwise translation with the output
prefix and call counter carried along. -/
theorem batchLoopTrans_eq (O : TransOracles) (now : ℕ) (sl tl : String) :
    ∀ (remaining : List TActivity) (db : List TranslationCacheEntry)
      (translated : List TActivity) (calls : ℕ),
      batchLoopTrans O now sl tl db translated remaining calls
        = (translated ++ (seqTranslate O now sl tl db remaining).1,
           (seqTranslate O now sl tl db remaining).2.1,
           calls + (seqTranslate O now sl tl db remaining).2.2) := by
  have main : ∀ (n : ℕ) (remaining : List TActivity), remaining.length ≤ n →
      ∀ (db : List TranslationCacheEntry) (translated : List TActivity)
        (calls : ℕ),
      batchLoopTrans O now sl tl db translated remaining calls
        = (translated ++ (seqTranslate O now sl tl db remaining).1,
           (seqTranslate O now sl tl db remaining).2.1,
           calls + (seqTranslate O now sl tl db remaining).2.2) := by
    intro n
    induction n with
    | zero =>
      intro remaining hlen db translated calls
      have hnil : remaining = [] :=
        List.eq_nil_of_length_eq_zero (Nat.le_zero.mp hlen)
      subst hnil
      simp [batchLoopTrans, seqTranslate]
    | succ n ihn =>
      intro remaining hlen db translated calls
      cases remaining with
      | nil => simp [batchLoopTrans, seqTranslate]
      | cons x rest =>
        have hlen2 : ((x :: rest).drop 10).length ≤ n := by
          simp only [List.length_drop, List.length_cons]
          simp only [List.length_cons] at hlen
          omega
        rw [batchLoopTrans]
        simp only [gatherTranslate_eq O now sl tl, foldl_appendBatchResult]
        rw [ihn ((x :: rest).drop 10) hlen2]
        conv_rhs => rw [← List.take_append_drop 10 (x :: rest)]
        rw [seqTranslate_append]
        simp [List.append_assoc, Nat.add_assoc]
  intro remaining db translated calls
  exact main remaining.length remaining (Nat.le_refl _) db translated calls

/-- C7: `batch_translate_activities` behaves exactly like translating the
activities one by one: the output has one entry per input, the entry at
position i is the translation of input i under the cache state reached at
that point, and that entry agrees with input i on every original field —
the original item is returned unchanged where translation failed. -/
theorem batch_translate_best_effort (O : TransOracles) (now : ℕ)
    (sl tl : String) (db : List TranslationCacheEntry)
    (activities : List TActivity) :
    (batch_translate_activities O now sl tl db activities).1
      = (seqTranslate O now sl tl db activities).1
    ∧ (batch_translate_activities O now sl tl db activities).1.length
      = activities.length
    ∧ ∀ (i : ℕ) (a : TActivity), activities[i]? = some a →
        ∃ d, (batch_translate_activities O now sl tl db activities).1[i]?
            = some ((translate_activity_content O now d a sl tl).1)
          ∧ ((translate_activity_content O now d a sl tl).1).name = a.name
          ∧ ((translate_activity_content O now d a sl tl).1).description
              = a.description
          ∧ ((translate_activity_content O now d a sl tl).1).external_rating
              = a.external_rating
          ∧ ((translate_activity_content O now d a sl tl).1).external_review_count
              = a.external_review_count
          ∧ ((translate_activity_content O now d a sl tl).1).types = a.types
          ∧ ((translate_activity_content O now d a sl tl).1).category
              = a.category := by
  have h1 : (batch_translate_activities O now sl tl db activities).1
      = (seqTranslate O now sl tl db activities).1 := by
    unfold batch_translate_activities
    by_cases h : activities = []
    · subst h
      rfl
    · rw [if_neg h, batchLoopTrans_eq]
      simp
  refine ⟨h1, ?_, ?_⟩
  · rw [h1, seqTranslate_length]
  · intro i a hia
    obtain ⟨d, hd⟩ := seqTranslate_get O now sl tl activities db i a hia
    exact ⟨d, by rw [h1]; exact hd,
      translate_activity_content_frame O now d a sl tl⟩

/-- Witness for C7 on a one-element batch with all remote calls failing. -/
theorem batch_translate_best_effort_witness :
    (batch_translate_activities failingOraclesC7 0 "en" "zh" []
        [(default : TActivity)]).1.length = 1 :=
  (batch_translate_best_effort failingOraclesC7 0 "en" "zh" []
    [(default : TActivity)]).2.1
